import Mathlib

/-!
Shallow embedding of the data-model layer of the ecommerce-platform
repository (Mongoose schemas for Order, Product, Review, Category).

JavaScript numbers are modelled as exact rationals (`ℚ`); timestamps
(millisecond epoch values) as integers (`ℤ`); ObjectId references by their
value (mongoose arrays compare ObjectIds by value in `includes`/`indexOf`).
Fallible operations return `Except`.  Database round trips in the review
hooks are modelled by passing the post-change review list explicitly.
-/

/-- A line item of an order (src/backend/src/models/Order.ts, `orderItemSchema`). -/
structure OrderItem where
  price : ℚ
  quantity : ℚ
deriving Repr, DecidableEq

/-- The pricing snapshot of an order (`orderPricingSchema`). -/
structure OrderPricing where
  subtotal : ℚ
  tax : ℚ
  shipping : ℚ
  discount : ℚ
  total : ℚ
deriving Repr, DecidableEq

/-- A timeline entry (`orderTimelineSchema`): status, message, timestamp. -/
structure TimelineEntry where
  status : String
  message : String
  timestamp : ℤ
deriving Repr, DecidableEq

/-- The order document state relevant to the verified operations
(src/backend/src/models/Order.ts).  `pricing` is optional because
`calculateTotals` reads it through the optional-chaining `this.pricing?.discount`;
`actualDelivery` is `none` while the delivery timestamp is unset. -/
structure Order where
  orderStatus : String
  timeline : List TimelineEntry
  items : List OrderItem
  pricing : Option OrderPricing
  actualDelivery : Option ℤ
deriving Repr, DecidableEq

/-- `orderSchema.methods.calculateTotals` (Order.ts lines 219-232):
subtotal by `reduce` over the items, 16% tax, shipping 200 unless the
subtotal exceeds 5000, discount carried from the existing pricing snapshot
(`this.pricing?.discount || 0`). -/
def calculateTotals (o : Order) : OrderPricing :=
  let subtotal := o.items.foldl (fun sum item => sum + item.price * item.quantity) 0
  let tax := subtotal * (16 / 100)
  let shipping := if subtotal > 5000 then (0 : ℚ) else 200
  let discount := match o.pricing with
    | some p => p.discount
    | none => 0
  let total := subtotal + tax + shipping - discount
  { subtotal := subtotal, tax := tax, shipping := shipping,
    discount := discount, total := total }

/-- `orderSchema.methods.getStatusMessage` (Order.ts lines 205-216):
object lookup with fallback `|| 'Status updated'`. -/
def getStatusMessage (status : String) : String :=
  if status = "pending" then "Order is pending confirmation"
  else if status = "confirmed" then "Order has been confirmed"
  else if status = "processing" then "Order is being processed"
  else if status = "shipped" then "Order has been shipped"
  else if status = "delivered" then "Order has been delivered"
  else if status = "cancelled" then "Order has been cancelled"
  else if status = "refunded" then "Order has been refunded"
  else "Status updated"

/-- `orderSchema.methods.updateStatus` (Order.ts lines 185-202).
The message resolution embeds the JavaScript expression
`message || this.getStatusMessage(status)`: `undefined` and the empty
string are the falsy cases for an optional string. -/
def updateStatus (o : Order) (status : String) (message : Option String)
    (now : ℤ) : Order :=
  let msg := match message with
    | some m => if m = "" then getStatusMessage status else m
    | none => getStatusMessage status
  { o with
    orderStatus := status,
    timeline := o.timeline ++ [{ status := status, message := msg, timestamp := now }],
    actualDelivery :=
      if status = "delivered" ∧ o.actualDelivery = none then some now
      else o.actualDelivery }

/-- `orderSchema.methods.canBeReturned` (Order.ts lines 241-248),
with the wall clock passed explicitly as `now`. -/
def canBeReturned (o : Order) (now : ℤ) : Bool :=
  if o.orderStatus ≠ "delivered" then false
  else match o.actualDelivery with
    | none => false
    | some d => decide (now - d ≤ 7 * 24 * 60 * 60 * 1000)

/-- The second `orderSchema.pre('save')` hook (Order.ts lines 166-175):
on a new document it pushes the initial `pending` timeline entry. -/
def orderPreSaveTimeline (o : Order) (isNew : Bool) (now : ℤ) : Order :=
  if isNew then
    { o with timeline := o.timeline ++
        [{ status := "pending", message := "Order has been placed", timestamp := now }] }
  else o

/-- Creation of an order: the schema defaults give `orderStatus = "pending"`
and an empty `timeline`; the first save runs the pre-save hook with
`isNew = true`. -/
def createOrder (items : List OrderItem) (pricing : Option OrderPricing)
    (now : ℤ) : Order :=
  orderPreSaveTimeline
    { orderStatus := "pending", timeline := [], items := items,
      pricing := pricing, actualDelivery := none } true now

/-- Spec-side lookup table for the canned per-status messages. -/
def statusMessageTable : List (String × String) :=
  [("pending", "Order is pending confirmation"),
   ("confirmed", "Order has been confirmed"),
   ("processing", "Order is being processed"),
   ("shipped", "Order has been shipped"),
   ("delivered", "Order has been delivered"),
   ("cancelled", "Order has been cancelled"),
   ("refunded", "Order has been refunded")]

/-- Spec-side status message: table lookup, falling back to
"Status updated" for a status outside the table. -/
def specStatusMessage (status : String) : String :=
  (statusMessageTable.lookup status).getD "Status updated"

theorem specStatusMessage_eq_getStatusMessage (s : String) :
    specStatusMessage s = getStatusMessage s := by
  by_cases h1 : s = "pending"
  · subst h1; rfl
  by_cases h2 : s = "confirmed"
  · subst h2; rfl
  by_cases h3 : s = "processing"
  · subst h3; rfl
  by_cases h4 : s = "shipped"
  · subst h4; rfl
  by_cases h5 : s = "delivered"
  · subst h5; rfl
  by_cases h6 : s = "cancelled"
  · subst h6; rfl
  by_cases h7 : s = "refunded"
  · subst h7; rfl
  simp only [specStatusMessage, statusMessageTable, List.lookup,
    beq_eq_false_iff_ne.mpr h1, beq_eq_false_iff_ne.mpr h2,
    beq_eq_false_iff_ne.mpr h3, beq_eq_false_iff_ne.mpr h4,
    beq_eq_false_iff_ne.mpr h5, beq_eq_false_iff_ne.mpr h6,
    beq_eq_false_iff_ne.mpr h7, Option.getD]
  simp [getStatusMessage, h1, h2, h3, h4, h5, h6, h7]

theorem foldl_price_quantity (l : List OrderItem) (a : ℚ) :
    l.foldl (fun sum item => sum + item.price * item.quantity) a
      = a + (l.map (fun item => item.price * item.quantity)).sum := by
  induction l generalizing a with
  | nil => simp
  | cons x xs ih => simp [ih, add_assoc]

/-- C1: `calculateTotals` returns subtotal `Σ price·qty`, tax `0.16·subtotal`,
shipping `0` when the subtotal strictly exceeds 5000 and `200` otherwise,
the discount carried in the existing pricing snapshot (0 when absent), and
total `subtotal + tax + shipping − discount`. -/
theorem calculateTotals_spec (o : Order) :
    (calculateTotals o).subtotal
        = (o.items.map (fun item => item.price * item.quantity)).sum ∧
    (calculateTotals o).tax = 0.16 * (calculateTotals o).subtotal ∧
    (calculateTotals o).shipping
        = (if (calculateTotals o).subtotal > 5000 then 0 else 200) ∧
    (calculateTotals o).discount
        = (match o.pricing with | some p => p.discount | none => 0) ∧
    (calculateTotals o).total
        = (calculateTotals o).subtotal + (calculateTotals o).tax
            + (calculateTotals o).shipping - (calculateTotals o).discount := by
  have hsub : (calculateTotals o).subtotal
      = (o.items.map (fun item => item.price * item.quantity)).sum := by
    simp [calculateTotals, foldl_price_quantity]
  refine ⟨hsub, ?_, ?_, ?_, ?_⟩
  · show (calculateTotals o).subtotal * (16 / 100) = _
    rw [mul_comm]
    norm_num
  · rfl
  · rfl
  · rfl

/-- The embedded `discount` subdocument of a product
(src/backend/src/models/Product.ts, `productSchema.discount`).
`dtype` embeds the schema field named `type`. -/
structure Discount where
  dtype : String
  value : ℚ
  startDate : Option ℤ
  endDate : Option ℤ
deriving Repr, DecidableEq

/-- The `ratings` aggregate of a product (`productSchema.ratings`). -/
structure Ratings where
  average : ℚ
  count : ℕ
deriving Repr, DecidableEq

/-- The product document state relevant to the verified operations
(src/backend/src/models/Product.ts). -/
structure Product where
  price : ℚ
  stock : ℚ
  discount : Option Discount
  ratings : Ratings
deriving Repr, DecidableEq

/-- `productSchema.methods.calculateDiscountedPrice` (Product.ts lines
200-214), with the wall clock passed explicitly as `now`. -/
def calculateDiscountedPrice (p : Product) (now : ℤ) : ℚ :=
  match p.discount with
  | none => p.price
  | some d =>
    if (match d.startDate with | some s => decide (now < s) | none => false) then p.price
    else if (match d.endDate with | some e => decide (now > e) | none => false) then p.price
    else if d.dtype = "percentage" then p.price * (1 - d.value / 100)
    else if d.dtype = "fixed" then max 0 (p.price - d.value)
    else p.price

/-- `productSchema.methods.reduceStock` (Product.ts lines 236-242):
throws on insufficient stock, otherwise decrements. -/
def reduceStock (p : Product) (quantity : ℚ) : Except String Product :=
  if p.stock < quantity then Except.error "Insufficient stock"
  else Except.ok { p with stock := p.stock - quantity }

/-- Spec-side activity test for a discount: the current time lies within
`[startDate, endDate]`, an absent bound being unbounded on that side. -/
def discountActive (d : Discount) (now : ℤ) : Bool :=
  (match d.startDate with | some s => decide (s ≤ now) | none => true) &&
  (match d.endDate with | some e => decide (now ≤ e) | none => true)

/-- C3: `reduceStock` fails with the insufficient-stock error and leaves the
stock unchanged when the requested quantity strictly exceeds the current
stock, and otherwise decrements the stock by exactly the quantity; on stock 5,
quantity 6 fails leaving the stock at 5 and quantity 5 succeeds leaving 0. -/
theorem reduceStock_spec (p : Product) (q : ℚ) :
    (reduceStock p q = if q > p.stock then Except.error "Insufficient stock"
        else Except.ok { p with stock := p.stock - q }) ∧
    reduceStock ⟨100, 5, none, ⟨0, 0⟩⟩ 6 = Except.error "Insufficient stock" ∧
    reduceStock ⟨100, 5, none, ⟨0, 0⟩⟩ 5 = Except.ok ⟨100, 0, none, ⟨0, 0⟩⟩ := by
  refine ⟨?_, ?_, ?_⟩
  · simp only [reduceStock, gt_iff_lt]
  · have h : (5 : ℚ) < 6 := by norm_num
    simp [reduceStock, h]
  · have h : ¬ (5 : ℚ) < 5 := by norm_num
    have h0 : (5 : ℚ) - 5 = 0 := by norm_num
    simp [reduceStock, h, h0]

/-- C5: `canBeReturned` is true exactly when the status is `delivered`, a
delivery timestamp exists, and the elapsed time since delivery is at most
604800000 ms; on an order delivered at time 0 it is true at 604800000 and
false at 604800001. -/
theorem canBeReturned_spec (o : Order) (now : ℤ) :
    (canBeReturned o now = true ↔
      o.orderStatus = "delivered" ∧
        ∃ d, o.actualDelivery = some d ∧ now - d ≤ 604800000) ∧
    canBeReturned ⟨"delivered", [], [], none, some 0⟩ 604800000 = true ∧
    canBeReturned ⟨"delivered", [], [], none, some 0⟩ 604800001 = false := by
  refine ⟨?_, by decide, by decide⟩
  unfold canBeReturned
  by_cases h : o.orderStatus = "delivered"
  · cases hd : o.actualDelivery with
    | none => simp [h, hd]
    | some d => simp [h, hd]
  · simp [h]

/-- C6: the discounted price is the base price when no discount exists, when
the current time is outside the `[startDate, endDate]` window, or when the
discount type is neither `percentage` nor `fixed`; an active percentage
discount gives `price · (1 − value/100)` and an active fixed discount gives
`max 0 (price − value)`.  Percentage 20 on price 100 gives 100 outside the
bounds and 80 inside them; fixed 150 on price 100 gives 0. -/
theorem calculateDiscountedPrice_spec (p : Product) (now : ℤ) :
    (calculateDiscountedPrice p now =
      match p.discount with
      | none => p.price
      | some d =>
        if discountActive d now then
          if d.dtype = "percentage" then p.price * (1 - d.value / 100)
          else if d.dtype = "fixed" then max 0 (p.price - d.value)
          else p.price
        else p.price) ∧
    calculateDiscountedPrice ⟨100, 0, some ⟨"percentage", 20, some 10, some 20⟩, ⟨0, 0⟩⟩ 30
        = 100 ∧
    calculateDiscountedPrice ⟨100, 0, some ⟨"percentage", 20, some 10, some 20⟩, ⟨0, 0⟩⟩ 15
        = 80 ∧
    calculateDiscountedPrice ⟨100, 0, some ⟨"fixed", 150, none, none⟩, ⟨0, 0⟩⟩ 0 = 0 := by
  have hfp : ("fixed" : String) ≠ "percentage" := by decide
  refine ⟨?_, by norm_num [calculateDiscountedPrice],
    by norm_num [calculateDiscountedPrice], by norm_num [calculateDiscountedPrice, hfp]⟩
  cases hd : p.discount with
  | none => simp [calculateDiscountedPrice, hd]
  | some d =>
    obtain ⟨ty, v, sd, ed⟩ := d
    simp only [calculateDiscountedPrice, hd, discountActive]
    cases sd with
    | none =>
      cases ed with
      | none => simp
      | some e =>
        by_cases hle : now ≤ e
        · simp [hle, not_lt.mpr hle]
        · simp [hle, lt_of_not_le hle]
    | some s =>
      by_cases hsle : s ≤ now
      · cases ed with
        | none => simp [hsle, not_lt.mpr hsle]
        | some e =>
          by_cases hle : now ≤ e
          · simp [hsle, hle, not_lt.mpr hsle, not_lt.mpr hle]
          · simp [hsle, hle, not_lt.mpr hsle, lt_of_not_le hle]
      · simp [hsle, lt_of_not_le hsle]

/-- C10: for every product with an active percentage-type discount the
discounted price is `price · (1 − value/100)` with no lower clamp at zero,
and at price 100 with percentage value 200 the returned price is −100,
strictly negative. -/
theorem percentage_discount_no_clamp (p : Product) (d : Discount) (now : ℤ)
    (hd : p.discount = some d) (hty : d.dtype = "percentage")
    (hact : discountActive d now = true) :
    calculateDiscountedPrice p now = p.price * (1 - d.value / 100) ∧
    calculateDiscountedPrice ⟨100, 0, some ⟨"percentage", 200, none, none⟩, ⟨0, 0⟩⟩ 0
        = -100 ∧
    ((-100 : ℚ) < 0) := by
  refine ⟨?_, by norm_num [calculateDiscountedPrice], by norm_num⟩
  obtain ⟨ty, v, sd, ed⟩ := d
  simp only at hty
  subst hty
  simp only [calculateDiscountedPrice, hd]
  cases sd with
  | none =>
    cases ed with
    | none => simp
    | some e =>
      simp only [discountActive, Bool.true_and, decide_eq_true_eq] at hact
      simp [not_lt.mpr hact]
  | some s =>
    cases ed with
    | none =>
      simp only [discountActive, Bool.and_true, decide_eq_true_eq] at hact
      simp [not_lt.mpr hact]
    | some e =>
      simp only [discountActive, Bool.and_eq_true, decide_eq_true_eq] at hact
      simp [not_lt.mpr hact.1, not_lt.mpr hact.2]

/-- Witness for `percentage_discount_no_clamp`: a product at price 100 with an
always-active percentage discount of value 200. -/
theorem percentage_discount_no_clamp_witness :
    calculateDiscountedPrice ⟨100, 0, some ⟨"percentage", 200, none, none⟩, ⟨0, 0⟩⟩ 0
        = 100 * (1 - 200 / 100) ∧
    calculateDiscountedPrice ⟨100, 0, some ⟨"percentage", 200, none, none⟩, ⟨0, 0⟩⟩ 0
        = -100 ∧
    ((-100 : ℚ) < 0) :=
  percentage_discount_no_clamp
    ⟨100, 0, some ⟨"percentage", 200, none, none⟩, ⟨0, 0⟩⟩
    ⟨"percentage", 200, none, none⟩ 0 rfl rfl (by decide)

/-- C4-counterexample: the claim says the appended timeline entry carries the
supplied message whenever one is present, but supplying the empty string (a
present message) yields the canned per-status message instead, because the
source evaluates `message || this.getStatusMessage(status)` and the empty
string is falsy. -/
theorem updateStatus_empty_message_counterexample :
    (updateStatus ⟨"pending", [], [], none, none⟩ "shipped" (some "") 0).timeline
        = [{ status := "shipped", message := "Order has been shipped", timestamp := 0 }] ∧
    "Order has been shipped" ≠ "" := by
  refine ⟨rfl, by decide⟩

/-- C4-amended: `updateStatus` sets the order status to the new status,
appends exactly one timeline entry whose message is the supplied message when
present and non-empty and otherwise the canned per-status message (the table
falling back to "Status updated" for a status outside it), and stamps the
actual-delivery timestamp exactly when the new status is `delivered` and no
timestamp is set, leaving an already-set timestamp unchanged. -/
theorem updateStatus_spec_amended (o : Order) (status : String)
    (message : Option String) (now : ℤ) :
    (updateStatus o status message now).orderStatus = status ∧
    (updateStatus o status message now).timeline
        = o.timeline ++
          [{ status := status,
             message := (match message with
               | some m => if m ≠ "" then m else specStatusMessage status
               | none => specStatusMessage status),
             timestamp := now }] ∧
    (updateStatus o status message now).actualDelivery
        = (if status = "delivered" ∧ o.actualDelivery = none then some now
            else o.actualDelivery) ∧
    (∀ s, specStatusMessage s = getStatusMessage s) := by
  refine ⟨rfl, ?_, rfl, specStatusMessage_eq_getStatusMessage⟩
  simp only [updateStatus]
  congr 1
  cases message with
  | none => simp [specStatusMessage_eq_getStatusMessage]
  | some m =>
    by_cases hm : m = ""
    · simp [hm, specStatusMessage_eq_getStatusMessage]
    · simp [hm, specStatusMessage_eq_getStatusMessage]

/-- C8: a newly created order, before any explicit status transition, has a
timeline containing exactly one entry, and that entry has status `pending`. -/
theorem createOrder_timeline_pending (items : List OrderItem)
    (pricing : Option OrderPricing) (now : ℤ) :
    (createOrder items pricing now).timeline
        = [{ status := "pending", message := "Order has been placed", timestamp := now }] ∧
    (createOrder items pricing now).timeline.length = 1 ∧
    (createOrder items pricing now).timeline.map (fun e => e.status) = ["pending"] :=
  ⟨rfl, rfl, rfl⟩

/-- The review document state relevant to the verified operations
(src/unnamed/part_001, `reviewSchema`).  ObjectId references (`product`,
the members of `helpfulBy`) are modelled by their value: mongoose arrays
compare ObjectIds by value in `includes`/`indexOf`. -/
structure Review where
  product : ℕ
  rating : ℚ
  isApproved : Bool
  helpful : ℚ
  helpfulBy : List ℕ
deriving Repr, DecidableEq

/-- The recomputation shared verbatim by `reviewSchema.post('save')`
(part_001 lines 156-176) and `reviewSchema.post('deleteOne')` (lines
179-199): fetch all reviews of the product with `isApproved: true`, sum the
ratings by `reduce`, divide by the count (0 when empty), round to one
decimal (`Math.round(x * 10) / 10`), and persist the aggregate onto the
product.  The database fetch is modelled by passing the post-change review
list. -/
def recomputeProductRating (reviews : List Review) (productId : ℕ) : Ratings :=
  let found := reviews.filter (fun r => r.product == productId && r.isApproved)
  let totalRating := found.foldl (fun sum r => sum + r.rating) 0
  let averageRating := if found.length > 0 then totalRating / (found.length : ℚ) else 0
  { average := ((round (averageRating * 10) : ℤ) : ℚ) / 10, count := found.length }

/-- `reviewSchema.post('save')`: runs after a review is created or updated. -/
def reviewPostSave (p : Product) (reviews : List Review) (productId : ℕ) : Product :=
  { p with ratings := recomputeProductRating reviews productId }

/-- `reviewSchema.post('deleteOne')`: runs after a review is deleted. -/
def reviewPostDeleteOne (p : Product) (reviews : List Review) (productId : ℕ) : Product :=
  { p with ratings := recomputeProductRating reviews productId }

/-- `reviewSchema.methods.markAsHelpful` (part_001 lines 202-209). -/
def markAsHelpful (r : Review) (userId : ℕ) : Review :=
  if r.helpfulBy.contains userId then r
  else { r with helpfulBy := r.helpfulBy ++ [userId], helpful := r.helpful + 1 }

theorem foldl_rating (l : List Review) (a : ℚ) :
    l.foldl (fun sum r => sum + r.rating) a = a + (l.map (fun r => r.rating)).sum := by
  induction l generalizing a with
  | nil => simp
  | cons x xs ih => simp [ih, add_assoc]

/-- C2: after a review creation, update, or deletion the owning product's
rating aggregate equals the full recomputation over the post-change set of
approved reviews of that product: the count is the number of approved
reviews and the average is the sum of their ratings divided by the count,
rounded to one decimal place, 0 when no approved review exists.  Ratings 4
and 2 (both approved) give average 3 and count 2; after deleting the
rating-4 review, average 2 and count 1. -/
theorem reviewHooks_recompute_spec (p : Product) (reviews : List Review)
    (productId : ℕ) :
    (reviewPostSave p reviews productId = reviewPostDeleteOne p reviews productId) ∧
    ((reviewPostSave p reviews productId).ratings.count
        = (reviews.filter (fun r => r.product == productId && r.isApproved)).length) ∧
    ((reviewPostSave p reviews productId).ratings.average
        = (if (reviews.filter (fun r => r.product == productId && r.isApproved)).length = 0
           then 0
           else ((round ((((reviews.filter
                    (fun r => r.product == productId && r.isApproved)).map
                      (fun r => r.rating)).sum
                  / ((reviews.filter
                    (fun r => r.product == productId && r.isApproved)).length : ℚ))
                  * 10) : ℤ) : ℚ) / 10)) ∧
    recomputeProductRating [⟨1, 4, true, 0, []⟩, ⟨1, 2, true, 0, []⟩] 1 = ⟨3, 2⟩ ∧
    recomputeProductRating [⟨1, 2, true, 0, []⟩] 1 = ⟨2, 1⟩ := by
  refine ⟨rfl, rfl, ?_, ?_, ?_⟩
  · simp only [reviewPostSave, recomputeProductRating]
    by_cases h : (reviews.filter (fun r => r.product == productId && r.isApproved)).length = 0
    · simp [h]
    · have hpos : (reviews.filter (fun r => r.product == productId && r.isApproved)).length > 0 :=
        Nat.pos_of_ne_zero h
      simp [h, hpos, foldl_rating]
  · norm_num [recomputeProductRating, round_eq]
  · norm_num [recomputeProductRating, round_eq]

/-- C7: `markAsHelpful` is idempotent — when the user is already in the
helpful-voter set it is a no-op, otherwise it adds the user to the voter set
and increments the helpful count by exactly one; two calls by the same user
increment the count by exactly one in total, not two. -/
theorem markAsHelpful_idempotent (r : Review) (u : ℕ) :
    (markAsHelpful r u = if r.helpfulBy.contains u then r
        else { r with helpfulBy := r.helpfulBy ++ [u], helpful := r.helpful + 1 }) ∧
    markAsHelpful (markAsHelpful r u) u = markAsHelpful r u ∧
    (markAsHelpful (markAsHelpful r u) u).helpful
        = r.helpful + (if r.helpfulBy.contains u then 0 else 1) := by
  have hsecond : markAsHelpful (markAsHelpful r u) u = markAsHelpful r u := by
    by_cases h : u ∈ r.helpfulBy
    · simp [markAsHelpful, h]
    · have hin : u ∈ r.helpfulBy ++ [u] := by simp
      simp [markAsHelpful, h, hin]
  refine ⟨rfl, hsecond, ?_⟩
  rw [hsecond]
  by_cases h : u ∈ r.helpfulBy
  · simp [markAsHelpful, h]
  · simp [markAsHelpful, h]

/-- Membership in the slug character class `[a-z0-9]`. -/
def isSlugChar (c : Char) : Bool :=
  ('a' ≤ c && c ≤ 'z') || ('0' ≤ c && c ≤ '9')

/-- The regex replacement `.replace(/[^a-z0-9]+/g, '-')`: every maximal run
of characters outside `[a-z0-9]` becomes a single hyphen.  The Boolean flag
records whether the previous character belonged to such a run. -/
def collapseRuns : Bool → List Char → List Char
  | _, [] => []
  | inRun, c :: rest =>
    if isSlugChar c then c :: collapseRuns false rest
    else if inRun then collapseRuns true rest
    else '-' :: collapseRuns true rest

/-- One step of the regex replacement `.replace(/(^-|-$)/g, '')`: remove a
single hyphen at the head of the list. -/
def stripLead : List Char → List Char
  | [] => []
  | c :: rest => if c = '-' then rest else c :: rest

/-- The full replacement `.replace(/(^-|-$)/g, '')`: one leading and one
trailing hyphen are removed. -/
def stripHyphens (l : List Char) : List Char :=
  (stripLead ((stripLead l).reverse)).reverse

/-- The slug derivation shared verbatim by `productSchema.pre('save')`
(Product.ts lines 188-197) and `categorySchema.pre('save')` (Category.ts
lines 71-79): lowercase the name, collapse non-alphanumeric runs to single
hyphens, strip the boundary hyphens. -/
def slugify (name : String) : String :=
  ⟨stripHyphens (collapseRuns false (name.data.map Char.toLower))⟩

/-- The JavaScript falsiness test `!this.slug` on an optional string field:
true for an absent slug and for the empty string. -/
def slugAbsent : Option String → Bool
  | none => true
  | some s => s == ""

/-- The slug-deriving part of `productSchema.pre('save')`: the slug is set
only when the name was modified while no slug exists yet. -/
def productPreSaveSlug (nameModified : Bool) (name : String)
    (slug : Option String) : Option String :=
  if nameModified && slugAbsent slug then some (slugify name) else slug

/-- The slug-deriving part of `categorySchema.pre('save')`, identical in the
source to the product hook. -/
def categoryPreSaveSlug (nameModified : Bool) (name : String)
    (slug : Option String) : Option String :=
  if nameModified && slugAbsent slug then some (slugify name) else slug

/-- Spec-side boundary stripping: drop every leading and trailing hyphen. -/
def dropHyphens (l : List Char) : List Char :=
  ((l.dropWhile (fun c => c == '-')).reverse.dropWhile (fun c => c == '-')).reverse

/-- Spec-side slug: the name lowercased, every maximal run of characters
outside `[a-z0-9]` replaced by a single hyphen, and all leading and trailing
hyphens stripped. -/
def slugSpec (name : String) : String :=
  ⟨dropHyphens (collapseRuns false (name.data.map Char.toLower))⟩

theorem collapseRuns_true_head :
    ∀ l : List Char, (collapseRuns true l).head? ≠ some '-'
  | [] => by simp [collapseRuns]
  | c :: rest => by
    by_cases h : isSlugChar c = true
    · have hc : c ≠ '-' := by
        intro e
        subst e
        exact absurd h (by decide)
      simp [collapseRuns, h, hc]
    · simpa [collapseRuns, h] using collapseRuns_true_head rest

theorem collapseRuns_chain (b : Bool) (l : List Char) :
    (collapseRuns b l).Chain' (fun a c => ¬(a = '-' ∧ c = '-')) := by
  induction l generalizing b with
  | nil => simp [collapseRuns]
  | cons c rest ih =>
    by_cases h : isSlugChar c = true
    · have hc : c ≠ '-' := by
        intro e
        subst e
        exact absurd h (by decide)
      simp only [collapseRuns, h, if_true]
      exact List.chain'_cons'.mpr ⟨fun y _ hy => hc hy.1, ih false⟩
    · cases b with
      | true => simpa [collapseRuns, h] using ih true
      | false =>
        simp only [collapseRuns, h, Bool.false_eq_true, if_false]
        refine List.chain'_cons'.mpr ⟨fun y hy h2 => ?_, ih true⟩
        exact collapseRuns_true_head rest (h2.2 ▸ hy)

theorem dropWhile_hyphen_eq_stripLead (l : List Char)
    (h : l.Chain' (fun a c => ¬(a = '-' ∧ c = '-'))) :
    l.dropWhile (fun c => c == '-') = stripLead l := by
  cases l with
  | nil => rfl
  | cons c rest =>
    by_cases hc : c = '-'
    · subst hc
      cases rest with
      | nil => simp [stripLead, List.dropWhile]
      | cons d t =>
        have hd : d ≠ '-' := fun e => (List.chain'_cons.mp h).1 ⟨rfl, e⟩
        simp [stripLead, List.dropWhile, beq_eq_false_iff_ne.mpr hd]
    · simp [stripLead, List.dropWhile, hc, beq_eq_false_iff_ne.mpr hc]

theorem stripLead_chain (l : List Char)
    (h : l.Chain' (fun a c => ¬(a = '-' ∧ c = '-'))) :
    (stripLead l).Chain' (fun a c => ¬(a = '-' ∧ c = '-')) := by
  cases l with
  | nil => exact h
  | cons c rest =>
    by_cases hc : c = '-'
    · simpa [stripLead, hc] using h.tail
    · simpa [stripLead, hc] using h

theorem chain_reverse_hyphen (l : List Char)
    (h : l.Chain' (fun a c => ¬(a = '-' ∧ c = '-'))) :
    l.reverse.Chain' (fun a c => ¬(a = '-' ∧ c = '-')) := by
  rw [List.chain'_reverse]
  exact h.imp fun a b hab hba => hab ⟨hba.2, hba.1⟩

theorem stripHyphens_eq_dropHyphens (l : List Char)
    (h : l.Chain' (fun a c => ¬(a = '-' ∧ c = '-'))) :
    stripHyphens l = dropHyphens l := by
  unfold stripHyphens dropHyphens
  rw [dropWhile_hyphen_eq_stripLead l h]
  rw [dropWhile_hyphen_eq_stripLead _ (chain_reverse_hyphen _ (stripLead_chain l h))]

theorem slugify_eq_slugSpec (name : String) : slugify name = slugSpec name :=
  congrArg String.mk
    (stripHyphens_eq_dropHyphens _ (collapseRuns_chain false _))

/-- C9: when a category or product slug is derived (name modified while no
slug exists), it equals the name lowercased with every maximal run of
characters outside `[a-z0-9]` replaced by a single hyphen and the leading
and trailing hyphens stripped; "Men's Running Shoes!!" yields
"men-s-running-shoes". -/
theorem slug_generation_spec :
    (∀ name, slugify name = slugSpec name) ∧
    (∀ name, productPreSaveSlug true name none = some (slugSpec name)) ∧
    (∀ name, categoryPreSaveSlug true name none = some (slugSpec name)) ∧
    slugify "Men\x27s Running Shoes!!" = "men-s-running-shoes" := by
  refine ⟨slugify_eq_slugSpec, ?_, ?_, ?_⟩
  · intro name
    simp [productPreSaveSlug, slugAbsent, slugify_eq_slugSpec]
  · intro name
    simp [categoryPreSaveSlug, slugAbsent, slugify_eq_slugSpec]
  · decide
